import Mathlib

/-!
Shallow embedding of `src/main.rs` of the `terminal_words` dictionary CLI.

The embedding covers:
* the response schema (`DictionaryResponse`, `Phonetic`, `Meaning`,
  `Definition`, `License`) together with the JSON decoding semantics produced
  by `#[derive(Deserialize)]` (serde_json): unknown object keys are ignored,
  duplicated known keys are rejected, a missing `Option` field and an explicit
  `null` both decode to `none`, and missing required fields are rejected;
* the rendering pipeline `display_word_info` / the helpers `format_list` and
  `print_non_empty_list`, modelled as a pure function from a response and
  `DisplayOptions` to the ordered list of printed lines (colour styling is
  dropped; each printed line is kept as a structured `Line` value, and
  `Line.text` recovers the un-styled text content);
* the interactive-session helpers `is_exit_command` and the per-line step of
  `run_interactive_mode`.
-/

/-- Rust struct `Phonetic` (src/main.rs, lines 36-40). -/
structure Phonetic where
  text : Option String
  audio : Option String

/-- Rust struct `Definition` (src/main.rs, lines 51-57).
The Rust field `example` is called `example_` here because `example` is a
Lean keyword. -/
structure Definition where
  definition : String
  example_ : Option String
  synonyms : Option (List String)
  antonyms : Option (List String)

/-- Rust struct `Meaning` (src/main.rs, lines 42-49).  This struct carries
`#[serde(rename_all = "camelCase")]`, so its wire key for `part_of_speech`
is `partOfSpeech`. -/
structure Meaning where
  part_of_speech : Option String
  definitions : List Definition
  synonyms : Option (List String)
  antonyms : Option (List String)

/-- Rust struct `License` (src/main.rs, lines 59-63). -/
structure License where
  name : String
  url : String

/-- Rust struct `DictionaryResponse` (src/main.rs, lines 26-34).  Note that,
unlike `Meaning`, this struct has no `rename_all` attribute, so its wire keys
are the Rust field names themselves — in particular `source_urls`, not
`sourceUrls`. -/
structure DictionaryResponse where
  word : String
  phonetic : Option String
  phonetics : Option (List Phonetic)
  meanings : List Meaning
  license : Option License
  source_urls : Option (List String)

/-- Rust struct `DisplayOptions` (src/main.rs, lines 94-100). -/
structure DisplayOptions where
  detailed : Bool
  limit : Nat

/-! ## JSON values and the serde_json decoding semantics -/

/-- JSON values.  Objects keep their fields as an ordered association list so
that serde_json's streaming behaviour on duplicated keys can be modelled. -/
inductive Json where
  | null
  | bool (b : Bool)
  | num (n : Int)
  | str (s : String)
  | arr (elems : List Json)
  | obj (fields : List (String × Json))

/-- Number of occurrences of key `k` among the fields of an object body. -/
def countKey (fields : List (String × Json)) (k : String) : Nat :=
  fields.countP (fun kv => kv.1 == k)

/-- serde decode of a Rust `String`: only a JSON string is accepted. -/
def decodeString : Json → Option String
  | .str s => some s
  | _ => none

/-- serde decode of a Rust `Option<T>` value that is present in the object:
`null` becomes `None`, anything else must decode as a `T`. -/
def decodeOpt (dec : Json → Option α) : Json → Option (Option α)
  | .null => some none
  | j => (dec j).map some

/-- serde decode of each element of a JSON array, in order; the first failing
element makes the whole decode fail. -/
def decodeList (dec : Json → Option α) : List Json → Option (List α)
  | [] => some []
  | j :: rest => (dec j).bind fun a => (decodeList dec rest).map fun as => a :: as

/-- serde decode of a Rust `Vec<T>`: only a JSON array is accepted. -/
def decodeArr (dec : Json → Option α) : Json → Option (List α)
  | .arr elems => decodeList dec elems
  | _ => none

/-- serde decode of a Rust `Vec<String>`. -/
def decodeStringList : Json → Option (List String) :=
  decodeArr decodeString

/-- serde decode of a required struct field named `k`: the key must occur
exactly once (serde rejects duplicated known fields and missing required
fields) and its value must decode. -/
def decodeField (fields : List (String × Json)) (k : String)
    (dec : Json → Option α) : Option α :=
  match fields.lookup k with
  | none => none
  | some v => if countKey fields k ≤ 1 then dec v else none

/-- serde decode of an optional struct field named `k`: a missing key decodes
to `none`, a key occurring once decodes through `decodeOpt dec`, a duplicated
key is rejected. -/
def decodeOptField (fields : List (String × Json)) (k : String)
    (dec : Json → Option α) : Option (Option α) :=
  match fields.lookup k with
  | none => some none
  | some v => if countKey fields k ≤ 1 then decodeOpt dec v else none

/-- serde decode of `Phonetic`: wire keys `text`, `audio` (both optional). -/
def decodePhonetic (j : Json) : Option Phonetic :=
  match j with
  | .obj fields =>
      (decodeOptField fields "text" decodeString).bind fun t =>
      (decodeOptField fields "audio" decodeString).map fun a =>
      ⟨t, a⟩
  | _ => none

/-- serde decode of `Definition`: wire keys `definition` (required string),
`example`, `synonyms`, `antonyms` (optional). -/
def decodeDefinition (j : Json) : Option Definition :=
  match j with
  | .obj fields =>
      (decodeField fields "definition" decodeString).bind fun d =>
      (decodeOptField fields "example" decodeString).bind fun ex =>
      (decodeOptField fields "synonyms" decodeStringList).bind fun syn =>
      (decodeOptField fields "antonyms" decodeStringList).map fun ant =>
      ⟨d, ex, syn, ant⟩
  | _ => none

/-- serde decode of `Meaning`.  Because of `rename_all = "camelCase"`, the
wire key of `part_of_speech` is `partOfSpeech`; the other field names are
unchanged by the camel-case mapping. -/
def decodeMeaning (j : Json) : Option Meaning :=
  match j with
  | .obj fields =>
      (decodeOptField fields "partOfSpeech" decodeString).bind fun pos =>
      (decodeField fields "definitions" (decodeArr decodeDefinition)).bind fun defs =>
      (decodeOptField fields "synonyms" decodeStringList).bind fun syn =>
      (decodeOptField fields "antonyms" decodeStringList).map fun ant =>
      ⟨pos, defs, syn, ant⟩
  | _ => none

/-- serde decode of `License`: wire keys `name`, `url` (both required). -/
def decodeLicense (j : Json) : Option License :=
  match j with
  | .obj fields =>
      (decodeField fields "name" decodeString).bind fun n =>
      (decodeField fields "url" decodeString).map fun u =>
      ⟨n, u⟩
  | _ => none

/-- serde decode of `DictionaryResponse`.  No `rename_all` attribute is
present on this struct in the source, so the expected wire keys are the Rust
field names verbatim — including `source_urls` (a JSON key `sourceUrls` is an
unknown field and is silently ignored). -/
def decodeResponse (j : Json) : Option DictionaryResponse :=
  match j with
  | .obj fields =>
      (decodeField fields "word" decodeString).bind fun w =>
      (decodeOptField fields "phonetic" decodeString).bind fun ph =>
      (decodeOptField fields "phonetics" (decodeArr decodePhonetic)).bind fun phs =>
      (decodeField fields "meanings" (decodeArr decodeMeaning)).bind fun ms =>
      (decodeOptField fields "license" decodeLicense).bind fun lic =>
      (decodeOptField fields "source_urls" decodeStringList).map fun su =>
      ⟨w, ph, phs, ms, lic, su⟩
  | _ => none

/-- The decoding step of `lookup_word` (src/main.rs, line 72): the body is
parsed as `Vec<DictionaryResponse>`, i.e. only a JSON array is accepted. -/
def decode_lookup_body (j : Json) : Option (List DictionaryResponse) :=
  decodeArr decodeResponse j

/-! ## Well-typedness predicates

`wtX j` says that `j` is a JSON value the serde decoder for `X` accepts:
every required field is present exactly once with a well-typed value, every
present optional field occurs exactly once and is `null` or well-typed, and
no known field is duplicated.  These predicates are the specification side of
the decode-characterisation theorems below. -/

/-- A JSON value that serde accepts for a Rust `String`. -/
def wtString : Json → Bool
  | .str _ => true
  | _ => false

/-- A JSON value that serde accepts for a present `Option<T>` field. -/
def wtOpt (wt : Json → Bool) : Json → Bool
  | .null => true
  | j => wt j

/-- A JSON value that serde accepts for a Rust `Vec<T>`. -/
def wtArr (wt : Json → Bool) : Json → Bool
  | .arr elems => elems.all wt
  | _ => false

/-- The object body has required field `k`: present exactly once, with a
well-typed value. -/
def hasReq (fields : List (String × Json)) (k : String) (wt : Json → Bool) : Bool :=
  match fields.lookup k with
  | none => false
  | some v => decide (countKey fields k ≤ 1) && wt v

/-- The optional field `k` of the object body is well-typed: either missing,
or present exactly once with a value that is `null` or well-typed. -/
def optWellTyped (fields : List (String × Json)) (k : String) (wt : Json → Bool) : Bool :=
  match fields.lookup k with
  | none => true
  | some v => decide (countKey fields k ≤ 1) && wtOpt wt v

/-- JSON values the `Phonetic` decoder accepts. -/
def wtPhonetic : Json → Bool
  | .obj fields =>
      optWellTyped fields "text" wtString &&
      optWellTyped fields "audio" wtString
  | _ => false

/-- JSON values the `Definition` decoder accepts. -/
def wtDefinition : Json → Bool
  | .obj fields =>
      hasReq fields "definition" wtString &&
      optWellTyped fields "example" wtString &&
      optWellTyped fields "synonyms" (wtArr wtString) &&
      optWellTyped fields "antonyms" (wtArr wtString)
  | _ => false

/-- JSON values the `Meaning` decoder accepts. -/
def wtMeaning : Json → Bool
  | .obj fields =>
      optWellTyped fields "partOfSpeech" wtString &&
      hasReq fields "definitions" (wtArr wtDefinition) &&
      optWellTyped fields "synonyms" (wtArr wtString) &&
      optWellTyped fields "antonyms" (wtArr wtString)
  | _ => false

/-- JSON values the `License` decoder accepts. -/
def wtLicense : Json → Bool
  | .obj fields =>
      hasReq fields "name" wtString &&
      hasReq fields "url" wtString
  | _ => false

/-- JSON values the `DictionaryResponse` decoder accepts. -/
def wtResponse : Json → Bool
  | .obj fields =>
      hasReq fields "word" wtString &&
      optWellTyped fields "phonetic" wtString &&
      optWellTyped fields "phonetics" (wtArr wtPhonetic) &&
      hasReq fields "meanings" (wtArr wtMeaning) &&
      optWellTyped fields "license" wtLicense &&
      optWellTyped fields "source_urls" (wtArr wtString)
  | _ => false

/-! ## The rendering pipeline

`display_word_info` (src/main.rs, lines 102-161) prints one line per logical
item.  Each printed line is modelled as a structured `Line` value; colour and
emphasis styling is dropped, and `Line.text` recovers the printed text. -/

/-- One printed line of `display_word_info`.  The Rust constructor for an
example line is called `example_` here because `example` is a Lean keyword. -/
inductive Line where
  | header (word : String)
  | phoneticLine (text : String)
  | pronunciation (text : String)
  | blank
  | partOfSpeech (pos : String)
  | definition (num : Nat) (text : String)
  | example_ (text : String)
  | defSynonyms (text : String)
  | defAntonyms (text : String)
  | moreHint (omitted : Nat)
  | meaningSynonyms (text : String)
  | meaningAntonyms (text : String)
  | source (url : String)

/-- The un-styled text content of a printed line, exactly as the `println!`
format strings of the source produce it (colour codes dropped). -/
def Line.text : Line → String
  | .header w => "\nWord: " ++ w
  | .phoneticLine t => "Phonetic: " ++ t
  | .pronunciation t => "Pronunciation: " ++ t
  | .blank => ""
  | .partOfSpeech pos => "Part of speech: " ++ pos
  | .definition n t => "  " ++ toString n ++ ". " ++ t
  | .example_ t => "     Example: " ++ t
  | .defSynonyms t => "     Synonyms: " ++ t
  | .defAntonyms t => "     Antonyms: " ++ t
  | .moreHint k => "     ... (+" ++ toString k ++ " more, use -d for all)"
  | .meaningSynonyms t => "  Synonyms: " ++ t
  | .meaningAntonyms t => "  Antonyms: " ++ t
  | .source url => "Source: " ++ url

/-- Rust `format_list` (src/main.rs, lines 79-85): format a non-empty list as
its ", "-join, `none` if the list is empty or missing. -/
def format_list (items : Option (List String)) : Option String :=
  (items.filter fun v => !v.isEmpty).map fun v => String.intercalate ", " v

/-- Rust `print_non_empty_list` (src/main.rs, lines 87-92): print one labeled
line when `format_list` produces text.  The indent-plus-label argument is
modelled by the `Line` constructor `mk`. -/
def print_non_empty_list (mk : String → Line) (items : Option (List String)) : List Line :=
  match format_list items with
  | some t => [mk t]
  | none => []

/-- The lines printed for the definition at (0-based) index `i` inside the
per-meaning loop of `display_word_info` (src/main.rs, lines 125-140). -/
def render_definition (detailed : Bool) (i : Nat) (d : Definition) : List Line :=
  [Line.definition (i + 1) d.definition]
    ++ (if detailed || i == 0 then
          match d.example_ with
          | some e => [Line.example_ e]
          | none => []
        else [])
    ++ (if detailed then
          print_non_empty_list Line.defSynonyms d.synonyms
            ++ print_non_empty_list Line.defAntonyms d.antonyms
        else [])

/-- How many definitions `display_word_info` shows for a meaning with
`total_defs` definitions (src/main.rs, line 123):
all of them when detailed, else at most `limit`. -/
def show_count (options : DisplayOptions) (total_defs : Nat) : Nat :=
  if options.detailed then total_defs else min total_defs options.limit

/-- The lines printed for one `Meaning` by the loop of `display_word_info`
(src/main.rs, lines 116-153). -/
def render_meaning (options : DisplayOptions) (meaning : Meaning) : List Line :=
  let pos := meaning.part_of_speech.getD "unknown"
  let total_defs := meaning.definitions.length
  [Line.partOfSpeech pos]
    ++ ((meaning.definitions.take (show_count options total_defs)).enum.flatMap fun p =>
          render_definition options.detailed p.1 p.2)
    ++ (if !options.detailed && show_count options total_defs < total_defs then
          [Line.moreHint (total_defs - show_count options total_defs)]
        else [])
    ++ (if options.detailed then
          print_non_empty_list Line.meaningSynonyms meaning.synonyms
            ++ print_non_empty_list Line.meaningAntonyms meaning.antonyms
        else [])
    ++ [Line.blank]

/-- Rust `display_word_info` (src/main.rs, lines 102-161) as a pure function
from a decoded response and display options to the printed lines, in order. -/
def display_word_info (response : DictionaryResponse) (options : DisplayOptions) : List Line :=
  [Line.header response.word]
    ++ (match response.phonetic with
        | some p => [Line.phoneticLine p]
        | none => [])
    ++ (((response.phonetics.getD []).filterMap fun p => p.text).map Line.pronunciation)
    ++ [Line.blank]
    ++ (response.meanings.flatMap (render_meaning options))
    ++ (if options.detailed then
          match response.source_urls.bind List.head? with
          | some url => [Line.source url]
          | none => []
        else [])

/-! ### Extractors for the structured line kinds -/

/-- Data of a numbered definition line. -/
def defLineData : Line → Option (Nat × String)
  | .definition n t => some (n, t)
  | _ => none

/-- Data of a truncation-hint line. -/
def hintData : Line → Option Nat
  | .moreHint k => some k
  | _ => none

/-- Data of an example line. -/
def exampleData : Line → Option String
  | .example_ t => some t
  | _ => none

/-- Data of a definition-level synonyms line. -/
def defSynData : Line → Option String
  | .defSynonyms t => some t
  | _ => none

/-- Data of a definition-level antonyms line. -/
def defAntData : Line → Option String
  | .defAntonyms t => some t
  | _ => none

/-- Data of a meaning-level synonyms line. -/
def meaningSynData : Line → Option String
  | .meaningSynonyms t => some t
  | _ => none

/-- Data of a meaning-level antonyms line. -/
def meaningAntData : Line → Option String
  | .meaningAntonyms t => some t
  | _ => none

/-- Data of a source-URL line. -/
def sourceData : Line → Option String
  | .source u => some u
  | _ => none

/-! ## The session loop helpers -/

/-- Rust `is_exit_command` (src/main.rs, lines 218-220):
`matches!(input, "q" | "quit" | "exit")`. -/
def is_exit_command (input : String) : Bool :=
  input == "q" || input == "quit" || input == "exit"

/-- What one iteration of the interactive loop does with a successfully read
input line. -/
inductive StepAction where
  | reprompt
  | exitFarewell
  | lookup (word : String)

/-- Rust `str::trim`, modelled on the character list of the string (the
whitespace class is the core `Char.isWhitespace` approximation of Rust's
Unicode `White_Space` class; it contains at least space, tab, CR and LF). -/
def rustTrim (s : String) : String :=
  ⟨((s.data.dropWhile Char.isWhitespace).reverse.dropWhile Char.isWhitespace).reverse⟩

/-- The per-line step of `run_interactive_mode` (src/main.rs, lines 195-207):
trim the line; an empty result re-prompts without any lookup, an exit command
terminates the loop with the farewell message, anything else is looked up. -/
def session_step (input : String) : StepAction :=
  let word := rustTrim input
  if word.isEmpty then .reprompt
  else if is_exit_command word then .exitFarewell
  else .lookup word

/-! ## Concrete payloads used by the scenario parts of the claims -/

/-- The minimal scenario payload
`{"word":"test","meanings":[{"definitions":[{"definition":"A simple test"}]}]}`. -/
def minimalJson : Json :=
  Json.obj
    [("word", Json.str "test"),
     ("meanings", Json.arr
        [Json.obj
           [("definitions", Json.arr
               [Json.obj [("definition", Json.str "A simple test")]])]])]

/-- A payload using the wire key `sourceUrls` exactly as the dictionary API
sends it. -/
def camelSourceJson : Json :=
  Json.obj
    [("word", Json.str "hello"),
     ("meanings", Json.arr []),
     ("sourceUrls", Json.arr [Json.str "https://en.wiktionary.org/wiki/hello"])]

/-- The same payload with the snake-case key the Rust struct actually
expects. -/
def snakeSourceJson : Json :=
  Json.obj
    [("word", Json.str "hello"),
     ("meanings", Json.arr []),
     ("source_urls", Json.arr [Json.str "https://en.wiktionary.org/wiki/hello"])]

/-! ## Success characterisation of the decoders -/

theorem isSome_chain2 {A B R : Type} (a : Option A) (b : Option B) (g : A → B → R) :
    (a.bind fun x => b.map fun y => g x y).isSome = (a.isSome && b.isSome) := by
  cases a <;> cases b <;> rfl

theorem isSome_chain4 {A B C D R : Type} (a : Option A) (b : Option B) (c : Option C)
    (d : Option D) (g : A → B → C → D → R) :
    (a.bind fun x1 => b.bind fun x2 => c.bind fun x3 => d.map fun x4 =>
        g x1 x2 x3 x4).isSome
      = (a.isSome && b.isSome && c.isSome && d.isSome) := by
  cases a <;> cases b <;> cases c <;> cases d <;> rfl

theorem isSome_chain6 {A B C D E F R : Type} (a : Option A) (b : Option B) (c : Option C)
    (d : Option D) (e : Option E) (f : Option F) (g : A → B → C → D → E → F → R) :
    (a.bind fun x1 => b.bind fun x2 => c.bind fun x3 => d.bind fun x4 =>
        e.bind fun x5 => f.map fun x6 => g x1 x2 x3 x4 x5 x6).isSome
      = (a.isSome && b.isSome && c.isSome && d.isSome && e.isSome && f.isSome) := by
  cases a <;> cases b <;> cases c <;> cases d <;> cases e <;> cases f <;> rfl

theorem isSome_decodeString (j : Json) : (decodeString j).isSome = wtString j := by
  cases j <;> rfl

theorem isSome_decodeOpt {α : Type} {dec : Json → Option α} {wt : Json → Bool}
    (h : ∀ j, (dec j).isSome = wt j) (j : Json) :
    (decodeOpt dec j).isSome = wtOpt wt j := by
  cases j <;> simp [decodeOpt, wtOpt, Option.isSome_map', h]

theorem isSome_decodeList {α : Type} {dec : Json → Option α} {wt : Json → Bool}
    (h : ∀ j, (dec j).isSome = wt j) (elems : List Json) :
    (decodeList dec elems).isSome = elems.all wt := by
  induction elems with
  | nil => rfl
  | cons x rest ih =>
      rw [decodeList, isSome_chain2, h, ih, List.all_cons]

theorem isSome_decodeArr {α : Type} {dec : Json → Option α} {wt : Json → Bool}
    (h : ∀ j, (dec j).isSome = wt j) (j : Json) :
    (decodeArr dec j).isSome = wtArr wt j := by
  cases j <;> simp [decodeArr, wtArr, isSome_decodeList h]

theorem isSome_decodeField {α : Type} {dec : Json → Option α} {wt : Json → Bool}
    (h : ∀ j, (dec j).isSome = wt j) (fields : List (String × Json)) (k : String) :
    (decodeField fields k dec).isSome = hasReq fields k wt := by
  cases hl : fields.lookup k with
  | none => simp [decodeField, hasReq, hl]
  | some v =>
      by_cases hc : countKey fields k ≤ 1 <;>
        simp [decodeField, hasReq, hl, hc, h]

theorem isSome_decodeOptField {α : Type} {dec : Json → Option α} {wt : Json → Bool}
    (h : ∀ j, (dec j).isSome = wt j) (fields : List (String × Json)) (k : String) :
    (decodeOptField fields k dec).isSome = optWellTyped fields k wt := by
  cases hl : fields.lookup k with
  | none => simp [decodeOptField, optWellTyped, hl]
  | some v =>
      by_cases hc : countKey fields k ≤ 1 <;>
        simp [decodeOptField, optWellTyped, hl, hc, isSome_decodeOpt h]

theorem isSome_decodeStringList (j : Json) :
    (decodeStringList j).isSome = wtArr wtString j :=
  isSome_decodeArr isSome_decodeString j

theorem isSome_decodePhonetic (j : Json) : (decodePhonetic j).isSome = wtPhonetic j := by
  cases j <;> try rfl
  next fields =>
  rw [decodePhonetic, wtPhonetic, isSome_chain2,
      isSome_decodeOptField isSome_decodeString,
      isSome_decodeOptField isSome_decodeString]

theorem isSome_decodeDefinition (j : Json) :
    (decodeDefinition j).isSome = wtDefinition j := by
  cases j <;> try rfl
  next fields =>
  rw [decodeDefinition, wtDefinition, isSome_chain4,
      isSome_decodeField isSome_decodeString,
      isSome_decodeOptField isSome_decodeString,
      isSome_decodeOptField isSome_decodeStringList,
      isSome_decodeOptField isSome_decodeStringList]

theorem isSome_decodeMeaning (j : Json) : (decodeMeaning j).isSome = wtMeaning j := by
  cases j <;> try rfl
  next fields =>
  rw [decodeMeaning, wtMeaning, isSome_chain4,
      isSome_decodeOptField isSome_decodeString,
      isSome_decodeField (isSome_decodeArr isSome_decodeDefinition),
      isSome_decodeOptField isSome_decodeStringList,
      isSome_decodeOptField isSome_decodeStringList]

theorem isSome_decodeLicense (j : Json) : (decodeLicense j).isSome = wtLicense j := by
  cases j <;> try rfl
  next fields =>
  rw [decodeLicense, wtLicense, isSome_chain2,
      isSome_decodeField isSome_decodeString,
      isSome_decodeField isSome_decodeString]

theorem isSome_decodeResponse (j : Json) :
    (decodeResponse j).isSome = wtResponse j := by
  cases j <;> try rfl
  next fields =>
  rw [decodeResponse, wtResponse, isSome_chain6,
      isSome_decodeField isSome_decodeString,
      isSome_decodeOptField isSome_decodeString,
      isSome_decodeOptField (isSome_decodeArr isSome_decodePhonetic),
      isSome_decodeField (isSome_decodeArr isSome_decodeMeaning),
      isSome_decodeOptField isSome_decodeLicense,
      isSome_decodeOptField isSome_decodeStringList]

theorem decodeList_eq_some_iff {α : Type} {dec : Json → Option α} :
    ∀ (elems : List Json) (rs : List α),
      decodeList dec elems = some rs ↔
        List.Forall₂ (fun j r => dec j = some r) elems rs := by
  intro elems
  induction elems with
  | nil =>
      intro rs
      cases rs <;> simp [decodeList]
  | cons x rest ih =>
      intro rs
      cases hx : dec x with
      | none =>
          cases rs <;> simp [decodeList, hx]
      | some a =>
          cases rs with
          | nil => simp [decodeList, hx]
          | cons r rs' =>
              simp only [decodeList, hx, Option.some_bind, Option.map_eq_some',
                List.forall₂_cons, ih]
              constructor
              · rintro ⟨ys, hys, heq⟩
                injection heq with h1 h2
                subst h1; subst h2
                exact ⟨rfl, hys⟩
              · rintro ⟨h1, h2⟩
                injection h1 with h1
                subst h1
                exact ⟨rs', h2, rfl⟩

/-! ## Helper lemmas about the rendering pipeline -/

theorem filterMap_flatMap {α β γ : Type} (l : List α) (f : α → List β) (g : β → Option γ) :
    (l.flatMap f).filterMap g = l.flatMap fun a => (f a).filterMap g := by
  induction l with
  | nil => rfl
  | cons x xs ih => simp [List.flatMap_cons, List.filterMap_append, ih]

theorem flatMap_singleton_fn {α β : Type} (l : List α) (g : α → β) :
    (l.flatMap fun a => [g a]) = l.map g := by
  induction l with
  | nil => rfl
  | cons x xs ih => simp [List.flatMap_cons, ih]

theorem flatMap_toList_filterMap {α β : Type} (l : List α) (h : α → Option β) :
    (l.flatMap fun a => (h a).toList) = l.filterMap h := by
  induction l with
  | nil => rfl
  | cons x xs ih => cases hx : h x <;> simp [List.flatMap_cons, List.filterMap_cons, hx, ih]

theorem flatMap_ite_toList {α β : Type} (l : List α) (c : α → Bool) (h : α → Option β) :
    (l.flatMap fun a => if c a then (h a).toList else []) =
      l.filterMap fun a => if c a then h a else none := by
  induction l with
  | nil => rfl
  | cons x xs ih =>
      cases hc : c x <;> cases hx : h x <;>
        simp [List.flatMap_cons, List.filterMap_cons, hc, hx, ih]

theorem filterMap_enum_snd {α β : Type} (l : List α) (h : α → Option β) :
    (l.enum.filterMap fun p => h p.2) = l.filterMap h := by
  conv_rhs => rw [← List.enum_map_snd l, List.filterMap_map]
  rfl

theorem filterMap_print_none {β : Type} (g : Line → Option β) (mk : String → Line)
    (h : ∀ s, g (mk s) = none) (items : Option (List String)) :
    (print_non_empty_list mk items).filterMap g = [] := by
  unfold print_non_empty_list
  cases format_list items <;> simp [h]

theorem filterMap_print_some (g : Line → Option String) (mk : String → Line)
    (h : ∀ s, g (mk s) = some s) (items : Option (List String)) :
    (print_non_empty_list mk items).filterMap g = (format_list items).toList := by
  unfold print_non_empty_list
  cases format_list items <;> simp [h]

theorem rd_defLine (det : Bool) (i : Nat) (d : Definition) :
    (render_definition det i d).filterMap defLineData = [(i + 1, d.definition)] := by
  cases det <;> cases hx : d.example_ <;>
    simp [render_definition, hx, List.filterMap_append, defLineData,
          filterMap_print_none, apply_ite (List.filterMap defLineData), ite_self]

theorem rd_hint (det : Bool) (i : Nat) (d : Definition) :
    (render_definition det i d).filterMap hintData = [] := by
  cases det <;> cases hx : d.example_ <;>
    simp [render_definition, hx, List.filterMap_append, hintData,
          filterMap_print_none, apply_ite (List.filterMap hintData), ite_self]

theorem rd_example (det : Bool) (i : Nat) (d : Definition) :
    (render_definition det i d).filterMap exampleData =
      if det || i == 0 then d.example_.toList else [] := by
  cases det <;> cases hx : d.example_ <;>
    simp [render_definition, hx, List.filterMap_append, exampleData,
          filterMap_print_none, apply_ite (List.filterMap exampleData), ite_self]

theorem rd_defSyn (det : Bool) (i : Nat) (d : Definition) :
    (render_definition det i d).filterMap defSynData =
      if det then (format_list d.synonyms).toList else [] := by
  cases det <;> cases hx : d.example_ <;>
    simp [render_definition, hx, List.filterMap_append, defSynData,
          filterMap_print_none, filterMap_print_some,
          apply_ite (List.filterMap defSynData), ite_self]

theorem rd_defAnt (det : Bool) (i : Nat) (d : Definition) :
    (render_definition det i d).filterMap defAntData =
      if det then (format_list d.antonyms).toList else [] := by
  cases det <;> cases hx : d.example_ <;>
    simp [render_definition, hx, List.filterMap_append, defAntData,
          filterMap_print_none, filterMap_print_some,
          apply_ite (List.filterMap defAntData), ite_self]

theorem rd_meaningSyn (det : Bool) (i : Nat) (d : Definition) :
    (render_definition det i d).filterMap meaningSynData = [] := by
  cases det <;> cases hx : d.example_ <;>
    simp [render_definition, hx, List.filterMap_append, meaningSynData,
          filterMap_print_none, apply_ite (List.filterMap meaningSynData), ite_self]

theorem rd_meaningAnt (det : Bool) (i : Nat) (d : Definition) :
    (render_definition det i d).filterMap meaningAntData = [] := by
  cases det <;> cases hx : d.example_ <;>
    simp [render_definition, hx, List.filterMap_append, meaningAntData,
          filterMap_print_none, apply_ite (List.filterMap meaningAntData), ite_self]

theorem rd_source (det : Bool) (i : Nat) (d : Definition) :
    (render_definition det i d).filterMap sourceData = [] := by
  cases det <;> cases hx : d.example_ <;>
    simp [render_definition, hx, List.filterMap_append, sourceData,
          filterMap_print_none, apply_ite (List.filterMap sourceData), ite_self]

theorem rm_defLine (opts : DisplayOptions) (m : Meaning) :
    (render_meaning opts m).filterMap defLineData =
      ((m.definitions.take (show_count opts m.definitions.length)).enum.map
        fun p => (p.1 + 1, p.2.definition)) := by
  simp [render_meaning, List.filterMap_append, filterMap_flatMap, rd_defLine,
        defLineData, filterMap_print_none, apply_ite (List.filterMap defLineData),
        ite_self, flatMap_singleton_fn]

theorem rm_hint (opts : DisplayOptions) (m : Meaning) :
    (render_meaning opts m).filterMap hintData =
      (if !opts.detailed && show_count opts m.definitions.length < m.definitions.length
       then [m.definitions.length - show_count opts m.definitions.length]
       else []) := by
  simp only [render_meaning, List.filterMap_append, filterMap_flatMap, rd_hint]
  cases hdet : opts.detailed <;>
    by_cases hc : show_count opts m.definitions.length < m.definitions.length <;>
      simp [hintData, hc, filterMap_print_none]

theorem rm_example (opts : DisplayOptions) (m : Meaning) :
    (render_meaning opts m).filterMap exampleData =
      ((m.definitions.take (show_count opts m.definitions.length)).enum.filterMap
        fun p => if opts.detailed || p.1 == 0 then p.2.example_ else none) := by
  simp only [render_meaning, List.filterMap_append, filterMap_flatMap, rd_example]
  rw [flatMap_ite_toList ((m.definitions.take (show_count opts m.definitions.length)).enum)
        (fun p => opts.detailed || p.1 == 0) (fun p => p.2.example_)]
  simp [exampleData, filterMap_print_none, apply_ite (List.filterMap exampleData),
        ite_self]

theorem rm_defSyn (opts : DisplayOptions) (m : Meaning) :
    (render_meaning opts m).filterMap defSynData =
      (if opts.detailed then
        (m.definitions.take (show_count opts m.definitions.length)).filterMap
          fun d => format_list d.synonyms
       else []) := by
  simp only [render_meaning, List.filterMap_append, filterMap_flatMap, rd_defSyn]
  cases hdet : opts.detailed with
  | false =>
      simp [defSynData, filterMap_print_none,
            apply_ite (List.filterMap defSynData), ite_self]
  | true =>
      simp [defSynData, filterMap_print_none, flatMap_toList_filterMap,
            apply_ite (List.filterMap defSynData), ite_self]
      exact filterMap_enum_snd _ (fun d : Definition => format_list d.synonyms)

theorem rm_defAnt (opts : DisplayOptions) (m : Meaning) :
    (render_meaning opts m).filterMap defAntData =
      (if opts.detailed then
        (m.definitions.take (show_count opts m.definitions.length)).filterMap
          fun d => format_list d.antonyms
       else []) := by
  simp only [render_meaning, List.filterMap_append, filterMap_flatMap, rd_defAnt]
  cases hdet : opts.detailed with
  | false =>
      simp [defAntData, filterMap_print_none,
            apply_ite (List.filterMap defAntData), ite_self]
  | true =>
      simp [defAntData, filterMap_print_none, flatMap_toList_filterMap,
            apply_ite (List.filterMap defAntData), ite_self]
      exact filterMap_enum_snd _ (fun d : Definition => format_list d.antonyms)

theorem rm_meaningSyn (opts : DisplayOptions) (m : Meaning) :
    (render_meaning opts m).filterMap meaningSynData =
      (if opts.detailed then (format_list m.synonyms).toList else []) := by
  simp only [render_meaning, List.filterMap_append, filterMap_flatMap, rd_meaningSyn]
  cases hdet : opts.detailed <;>
    simp [meaningSynData, List.filterMap_append, filterMap_print_none,
          filterMap_print_some, apply_ite (List.filterMap meaningSynData), ite_self]

theorem rm_meaningAnt (opts : DisplayOptions) (m : Meaning) :
    (render_meaning opts m).filterMap meaningAntData =
      (if opts.detailed then (format_list m.antonyms).toList else []) := by
  simp only [render_meaning, List.filterMap_append, filterMap_flatMap, rd_meaningAnt]
  cases hdet : opts.detailed <;>
    simp [meaningAntData, List.filterMap_append, filterMap_print_none,
          filterMap_print_some, apply_ite (List.filterMap meaningAntData), ite_self]

theorem rm_source (opts : DisplayOptions) (m : Meaning) :
    (render_meaning opts m).filterMap sourceData = [] := by
  simp [render_meaning, List.filterMap_append, filterMap_flatMap, rd_source,
        sourceData, filterMap_print_none, apply_ite (List.filterMap sourceData),
        ite_self]

theorem flatMap_const_nil {α β : Type} (l : List α) :
    (l.flatMap fun _ => ([] : List β)) = [] := by
  induction l <;> simp_all

theorem filterMap_comp_none {α β : Type} (g : Line → Option β) (mk : α → Line)
    (h : ∀ t, g (mk t) = none) (xs : List α) :
    xs.filterMap (g ∘ mk) = [] := by
  induction xs <;> simp_all [Function.comp]

theorem filterMap_display {β : Type} (g : Line → Option β) (r : DictionaryResponse)
    (opts : DisplayOptions)
    (h1 : ∀ w, g (Line.header w) = none)
    (h2 : ∀ t, g (Line.phoneticLine t) = none)
    (h3 : ∀ t, g (Line.pronunciation t) = none)
    (hb : g Line.blank = none)
    (hs : ∀ u, g (Line.source u) = none) :
    (display_word_info r opts).filterMap g
      = r.meanings.flatMap fun m => (render_meaning opts m).filterMap g := by
  unfold display_word_info
  cases hp : r.phonetic <;>
  cases hu : r.source_urls.bind List.head? <;>
  cases hdet : opts.detailed <;>
    simp [List.filterMap_append, filterMap_flatMap, h1, h2, h3, hb, hs,
          List.filterMap_map, Function.comp, hp, hu]

theorem dwi_source (r : DictionaryResponse) (opts : DisplayOptions) :
    (display_word_info r opts).filterMap sourceData =
      (if opts.detailed then (r.source_urls.bind List.head?).toList else []) := by
  unfold display_word_info
  cases hp : r.phonetic <;>
  cases hu : r.source_urls.bind List.head? <;>
  cases hdet : opts.detailed <;>
    simp [List.filterMap_append, filterMap_flatMap, rm_source, sourceData,
          List.filterMap_map, filterMap_comp_none, flatMap_const_nil, hp, hu]

/-- A meaning with five definitions, used to witness the truncation scenario. -/
def mfive : Meaning :=
  ⟨some "noun",
   [⟨"d1", some "e1", none, none⟩, ⟨"d2", none, none, none⟩,
    ⟨"d3", none, none, none⟩, ⟨"d4", none, none, none⟩,
    ⟨"d5", none, none, none⟩], none, none⟩

/-- A meaning with a single definition, used to witness the `limit = 0`
behaviour. -/
def mone : Meaning := ⟨none, [⟨"only", none, none, none⟩], none, none⟩

/-! ## The claims -/

/-- Claim C1.  The spec demands that the lower-camel-case wire keys the API
sends (e.g. `partOfSpeech`, `sourceUrls`) map to the corresponding model
fields consistently across all structures.  The code applies the camel-case
mapping on `Meaning` only: a payload carrying the API's `sourceUrls` key
decodes to a response whose `source_urls` field is empty (the key is ignored
as unknown), while the snake-case key `source_urls` — which the API never
sends — is the one that populates the field.  `partOfSpeech` on `Meaning`,
by contrast, is mapped as the spec says. -/
theorem claim1_camelcase_mapping_bug :
    (decodeResponse camelSourceJson).map (fun r => r.source_urls) = some none
    ∧ (decodeResponse snakeSourceJson).map (fun r => r.source_urls) =
        some (some ["https://en.wiktionary.org/wiki/hello"])
    ∧ (decodeMeaning (Json.obj [("partOfSpeech", Json.str "noun"),
          ("definitions", Json.arr [])])).map (fun m => m.part_of_speech) =
        some (some "noun") :=
  ⟨rfl, rfl, rfl⟩

/-- Claim C2 (amended).  The decoding step of `lookup_word` parses the body
only as a JSON array: an array decodes element-wise, in order, succeeding
exactly when every element is a well-typed result object; a single bare
result object is not accepted (see the counterexample theorem). -/
theorem claim2_array_decode_elementwise :
    (∀ (elems : List Json) (rs : List DictionaryResponse),
        decode_lookup_body (Json.arr elems) = some rs ↔
          List.Forall₂ (fun j r => decodeResponse j = some r) elems rs)
    ∧ (∀ elems : List Json,
        (decode_lookup_body (Json.arr elems)).isSome = elems.all wtResponse) := by
  constructor
  · intro elems rs
    exact decodeList_eq_some_iff elems rs
  · intro elems
    exact isSome_decodeList isSome_decodeResponse elems

/-- Claim C2, counterexample to the claim as stated: the minimal well-formed
result object decodes fine as a single `DictionaryResponse`, yet the decoding
step of `lookup_word` rejects it because the body is parsed only as an
array. -/
theorem claim2_single_object_rejected :
    (decodeResponse minimalJson).isSome = true ∧ decode_lookup_body minimalJson = none :=
  ⟨rfl, rfl⟩

/-- Claim C3.  In non-detailed mode each meaning renders exactly
`min total_definitions limit` numbered definition lines, taken from the front
of the definitions list in original order, plus exactly one truncation hint
stating the omitted count when `total_definitions` exceeds the shown count;
in particular 5 definitions with limit 3 yield 3 numbered lines and one hint
line reading "     ... (+2 more, use -d for all)". -/
theorem claim3_summary_truncation (m : Meaning) (limit : Nat) :
    (render_meaning ⟨false, limit⟩ m).filterMap defLineData =
        ((m.definitions.take (min m.definitions.length limit)).enum.map
          fun p => (p.1 + 1, p.2.definition))
    ∧ (render_meaning ⟨false, limit⟩ m).filterMap hintData =
        (if min m.definitions.length limit < m.definitions.length then
          [m.definitions.length - min m.definitions.length limit]
         else [])
    ∧ (m.definitions.length = 5 → limit = 3 →
        ((render_meaning ⟨false, limit⟩ m).filterMap defLineData).length = 3
        ∧ (render_meaning ⟨false, limit⟩ m).filterMap hintData = [2]
        ∧ Line.text (Line.moreHint 2) = "     ... (+2 more, use -d for all)") := by
  have hsc : show_count ⟨false, limit⟩ m.definitions.length
      = min m.definitions.length limit := rfl
  refine ⟨?_, ?_, ?_⟩
  · rw [rm_defLine, hsc]
  · rw [rm_hint, hsc]
    simp
  · intro h5 h3
    subst h3
    refine ⟨?_, ?_, rfl⟩
    · rw [rm_defLine, hsc]
      simp [h5]
    · rw [rm_hint, hsc]
      simp [h5]

/-- Claim C3, witness: the scenario instance at a concrete meaning with five
definitions and limit 3. -/
theorem claim3_truncation_witness :
    mfive.definitions.length = 5
    ∧ (((render_meaning ⟨false, 3⟩ mfive).filterMap defLineData).length = 3
        ∧ (render_meaning ⟨false, 3⟩ mfive).filterMap hintData = [2]
        ∧ Line.text (Line.moreHint 2) = "     ... (+2 more, use -d for all)") :=
  ⟨rfl, (claim3_summary_truncation mfive 3).2.2 rfl rfl⟩

/-- Claim C4.  In detailed mode the rendered output contains a numbered line
for every definition of every meaning (in order), a labeled line for every
non-empty synonym or antonym list at both the definition level and the
meaning level, and — when `source_urls` is present and non-empty — exactly
one source line showing only the first URL of the list (the remaining URLs
never appear). -/
theorem claim4_detailed_complete (r : DictionaryResponse) (limit : Nat) :
    (display_word_info r ⟨true, limit⟩).filterMap defLineData =
        (r.meanings.flatMap fun m =>
          m.definitions.enum.map fun p => (p.1 + 1, p.2.definition))
    ∧ (display_word_info r ⟨true, limit⟩).filterMap defSynData =
        (r.meanings.flatMap fun m =>
          m.definitions.filterMap fun d => format_list d.synonyms)
    ∧ (display_word_info r ⟨true, limit⟩).filterMap defAntData =
        (r.meanings.flatMap fun m =>
          m.definitions.filterMap fun d => format_list d.antonyms)
    ∧ (display_word_info r ⟨true, limit⟩).filterMap meaningSynData =
        (r.meanings.filterMap fun m => format_list m.synonyms)
    ∧ (display_word_info r ⟨true, limit⟩).filterMap meaningAntData =
        (r.meanings.filterMap fun m => format_list m.antonyms)
    ∧ (display_word_info r ⟨true, limit⟩).filterMap sourceData =
        (r.source_urls.bind List.head?).toList := by
  refine ⟨?_, ?_, ?_, ?_, ?_, ?_⟩
  · rw [filterMap_display defLineData r ⟨true, limit⟩
          (fun _ => rfl) (fun _ => rfl) (fun _ => rfl) rfl (fun _ => rfl)]
    simp [rm_defLine, show_count, List.take_length]
  · rw [filterMap_display defSynData r ⟨true, limit⟩
          (fun _ => rfl) (fun _ => rfl) (fun _ => rfl) rfl (fun _ => rfl)]
    simp [rm_defSyn, show_count, List.take_length]
  · rw [filterMap_display defAntData r ⟨true, limit⟩
          (fun _ => rfl) (fun _ => rfl) (fun _ => rfl) rfl (fun _ => rfl)]
    simp [rm_defAnt, show_count, List.take_length]
  · rw [filterMap_display meaningSynData r ⟨true, limit⟩
          (fun _ => rfl) (fun _ => rfl) (fun _ => rfl) rfl (fun _ => rfl)]
    simp [rm_meaningSyn, flatMap_toList_filterMap]
  · rw [filterMap_display meaningAntData r ⟨true, limit⟩
          (fun _ => rfl) (fun _ => rfl) (fun _ => rfl) rfl (fun _ => rfl)]
    simp [rm_meaningAnt, flatMap_toList_filterMap]
  · rw [dwi_source]
    rfl

/-- Claim C5.  Among the definitions a meaning actually shows, the example
line of the definition at index `i` is emitted exactly when the example field
is present and (`detailed` is true or `i = 0`); an example on a later
definition is suppressed in non-detailed mode. -/
theorem claim5_example_visibility (opts : DisplayOptions) (m : Meaning) :
    (render_meaning opts m).filterMap exampleData =
      ((m.definitions.take (show_count opts m.definitions.length)).enum.filterMap
        fun p => if opts.detailed || p.1 == 0 then p.2.example_ else none) :=
  rm_example opts m

/-- Claim C6 (amended).  Decoding a result object fails exactly when a
required field is missing, mistyped or duplicated (`word` and `meanings` on
the result, `definitions` on each meaning, the `definition` text on each
definition, `name` and `url` of a present `license`), or when a present
optional field is mistyped or duplicated; otherwise it succeeds with the
absent optional fields decoded as absent — `wtResponse` states exactly these
conditions.  In particular the minimal scenario payload decodes to
`word = "test"`, no phonetic, one meaning with no part of speech and one
definition with text "A simple test" and no example. -/
theorem claim6_decode_characterization :
    (∀ j : Json, (decodeResponse j).isSome = wtResponse j)
    ∧ decodeResponse minimalJson =
        some ⟨"test", none, none,
              [⟨none, [⟨"A simple test", none, none, none⟩], none, none⟩],
              none, none⟩ :=
  ⟨isSome_decodeResponse, rfl⟩

/-- Claim C6, counterexample to the claim as stated: a meaning object with no
`definitions` key makes the whole decode fail although `definitions` is not
in the claim's list of required fields, and a mistyped present optional field
(`phonetic` as a number) also makes the decode fail although the claim says
optional fields never cause errors. -/
theorem claim6_missing_definitions_fails :
    decodeResponse (Json.obj [("word", Json.str "test"),
        ("meanings", Json.arr [Json.obj []])]) = none
    ∧ decodeResponse (Json.obj [("word", Json.str "test"),
        ("meanings", Json.arr []), ("phonetic", Json.num 42)]) = none :=
  ⟨rfl, rfl⟩

/-- Claim C7.  The exit-command predicate is case-sensitive and exact: it
accepts exactly the strings "q", "quit" and "exit", and rejects everything
else — including "Quit", "quit " (trailing space) and "Q". -/
theorem claim7_exit_exact :
    (∀ s : String, is_exit_command s = true ↔ (s = "q" ∨ s = "quit" ∨ s = "exit"))
    ∧ is_exit_command "Quit" = false
    ∧ is_exit_command "quit " = false
    ∧ is_exit_command "Q" = false := by
  refine ⟨fun s => ?_, rfl, rfl, rfl⟩
  simp [is_exit_command, or_assoc]

/-- Claim C8.  `format_list` maps an absent list and an empty list to `none`
(so both render identically: no line), and a present non-empty list to its
", "-join in order; consequently `print_non_empty_list` produces a labeled
line exactly when the list is present and non-empty. -/
theorem claim8_format_list_spec :
    format_list none = none
    ∧ format_list (some []) = none
    ∧ (∀ (a : String) (l : List String),
        format_list (some (a :: l)) = some (String.intercalate ", " (a :: l)))
    ∧ (∀ (mk : String → Line) (items : Option (List String)),
        print_non_empty_list mk items ≠ [] ↔ ∃ l, items = some l ∧ l ≠ [])
    ∧ (∀ mk : String → Line,
        print_non_empty_list mk (some []) = print_non_empty_list mk none) := by
  refine ⟨rfl, rfl, fun a l => rfl, ?_, fun mk => rfl⟩
  intro mk items
  cases items with
  | none => simp [print_non_empty_list, format_list]
  | some l =>
      cases l with
      | nil => simp [print_non_empty_list, format_list, Option.filter]
      | cons a t => simp [print_non_empty_list, format_list, Option.filter]

/-- Claim C9.  A line whose trim is empty makes the interactive loop neither
look anything up nor exit: the step is a pure re-prompt. -/
theorem claim9_blank_input_reprompts (input : String) (h : rustTrim input = "") :
    session_step input = StepAction.reprompt
    ∧ session_step input ≠ StepAction.exitFarewell
    ∧ ∀ w, session_step input ≠ StepAction.lookup w := by
  have h1 : session_step input = StepAction.reprompt := by
    unfold session_step
    rw [h]
    rfl
  refine ⟨h1, ?_, ?_⟩
  · rw [h1]
    exact fun hc => StepAction.noConfusion hc
  · intro w
    rw [h1]
    exact fun hc => StepAction.noConfusion hc

/-- Claim C9, witness: a whitespace-only line at a concrete input. -/
theorem claim9_blank_input_witness :
    rustTrim " \t " = ""
    ∧ (session_step " \t " = StepAction.reprompt
        ∧ session_step " \t " ≠ StepAction.exitFarewell
        ∧ ∀ w, session_step " \t " ≠ StepAction.lookup w) :=
  ⟨rfl, claim9_blank_input_reprompts " \t " rfl⟩

/-- Claim C10.  With `detailed = false` and `limit = 0`, a meaning with at
least one definition renders no numbered definition line and exactly one
truncation hint whose omitted count is the total number of definitions,
reading "     ... (+N more, use -d for all)". -/
theorem claim10_limit_zero (m : Meaning) (h : 1 ≤ m.definitions.length) :
    (render_meaning ⟨false, 0⟩ m).filterMap defLineData = []
    ∧ (render_meaning ⟨false, 0⟩ m).filterMap hintData = [m.definitions.length]
    ∧ Line.text (Line.moreHint m.definitions.length)
        = "     ... (+" ++ toString m.definitions.length ++ " more, use -d for all)" := by
  have hsc : show_count ⟨false, 0⟩ m.definitions.length = 0 := by
    simp [show_count]
  have hpos : 0 < m.definitions.length := h
  refine ⟨?_, ?_, rfl⟩
  · rw [rm_defLine, hsc]
    simp
  · rw [rm_hint, hsc]
    simp [hpos]

/-- Claim C10, witness: the `limit = 0` behaviour at a concrete one-definition
meaning. -/
theorem claim10_limit_zero_witness :
    1 ≤ mone.definitions.length
    ∧ ((render_meaning ⟨false, 0⟩ mone).filterMap defLineData = []
        ∧ (render_meaning ⟨false, 0⟩ mone).filterMap hintData = [mone.definitions.length]
        ∧ Line.text (Line.moreHint mone.definitions.length)
            = "     ... (+" ++ toString mone.definitions.length ++ " more, use -d for all)") :=
  ⟨by decide, claim10_limit_zero mone (by decide)⟩
